import Mathlib

/-!
Verification development for the timeseries posthoc UQ comparison repository.

The definitions below are a shallow embedding of the Python sources:

* `src/mapie_plot_ts_tutorial.py` — the sequential interval estimator
  (`_estimate_prediction_intervals_worker`, lines 288-365), the blob-store
  I/O helpers (lines 566-597) and the base-model provider
  (`train_base_model`, lines 92-141);
* `src/compare_methods.py` — the method registry
  (`UQ_Comparer._get_methods_by_prefix`, lines 71-81), the invoker
  (`UQ_Comparer._run_methods`, lines 92-122) and the orchestrator
  (`compare_methods`, lines 180-211);
* `src/my_compare_methods_script.py` — the metrics wrapper
  (`My_UQ_Comparer.compute_metrics`, lines 110-144).

Numeric values are modelled as rationals (`ℚ`); floating-point array entries
that may be infinite are modelled by `PVal`, which distinguishes finite
values from `+inf`/`-inf`.  Machine-float rounding plays no role in any of
the properties below, which are about control flow, caching, shapes and
None/inf propagation.
-/

/-- A floating-point array entry: finite value, `+inf`, or `-inf`
(MAPIE's `predict` with `allow_infinite_bounds=True` may emit infinities). -/
inductive PVal where
  | fin (q : ℚ)
  | pinf
  | ninf
deriving DecidableEq

/-- `np.isinf` on a single entry. -/
def PVal.isInf : PVal → Bool
  | .fin _ => false
  | .pinf => true
  | .ninf => true

/-- The in-place update `arr[np.isinf(arr)] = eps` with `eps = -1`
(mapie_plot_ts_tutorial.py:332,357-358), on a single entry. -/
def replaceInf (v : PVal) : PVal :=
  if v.isInf then PVal.fin (-1) else v

/-- `replaceInf` on an interval row `(lower, upper)`. -/
def replaceInfPair (p : PVal × PVal) : PVal × PVal :=
  (replaceInf p.1, replaceInf p.2)

/-- `numpy.ndarray.squeeze` at the level of shapes: every axis of length 1 is
removed.  This is the squeeze applied to `y_pis` at
mapie_plot_ts_tutorial.py:360 and :247. -/
def npSqueeze (shape : List ℕ) : List ℕ :=
  shape.filter (fun d => d != 1)

/-- Python slice `l[a:b]` for `0 ≤ a ≤ b` (as used with `.iloc` in the
stepping loop). -/
def pySlice (l : List α) (a b : ℕ) : List α :=
  (l.take b).drop a

/-- The numpy slice assignment `l[off : off + xs.length] = xs`: entries of
`l` from `off` on are replaced by the entries of `xs`; the length of `l`
never changes (all call sites are in bounds). -/
def writeSlice : List α → ℕ → List α → List α
  | [], _, _ => []
  | a :: l, 0, xs =>
    match xs with
    | [] => a :: l
    | x :: xs' => x :: writeSlice l 0 xs'
  | a :: l, n + 1, xs => a :: writeSlice l n xs

/-- Apply `f` to the entries of `l` with indices in `[a, b)`, leaving the rest
unchanged (the in-place masked assignment on the slice `y_pis[step:step+gap]`). -/
def mapSlice (f : α → α) : ℕ → ℕ → List α → List α
  | _, _, [] => []
  | _, 0, l => l
  | 0, b + 1, x :: l => f x :: mapSlice f 0 b l
  | a + 1, b + 1, x :: l => x :: mapSlice f a b l

theorem length_writeSlice (l : List α) : ∀ (off : ℕ) (xs : List α),
    (writeSlice l off xs).length = l.length := by
  induction l with
  | nil => intro off xs; rfl
  | cons a l ih =>
    intro off xs
    cases off with
    | zero =>
      cases xs with
      | nil => rfl
      | cons x xs' => simp [writeSlice, ih]
    | succ n => simp [writeSlice, ih]

theorem length_mapSlice (f : α → α) : ∀ (a b : ℕ) (l : List α),
    (mapSlice f a b l).length = l.length := by
  intro a b l
  induction l generalizing a b with
  | nil => simp [mapSlice]
  | cons x l ih =>
    cases b with
    | zero => simp [mapSlice]
    | succ b =>
      cases a with
      | zero => simp [mapSlice, ih]
      | succ a => simp [mapSlice, ih]

theorem writeSlice_get?_lt (l : List α) : ∀ (off : ℕ) (xs : List α) (i : ℕ),
    i < off → (writeSlice l off xs).get? i = l.get? i := by
  induction l with
  | nil => intro off xs i _; rfl
  | cons a l ih =>
    intro off xs i hi
    cases off with
    | zero => omega
    | succ n =>
      cases i with
      | zero => rfl
      | succ j => simpa [writeSlice] using ih n xs j (by omega)

theorem writeSlice_get?_ge (l : List α) : ∀ (off : ℕ) (xs : List α) (i : ℕ),
    off ≤ i → i - off < xs.length → i < l.length →
    (writeSlice l off xs).get? i = xs.get? (i - off) := by
  induction l with
  | nil => intro off xs i _ _ h; simp at h
  | cons a l ih =>
    intro off xs i hoff hxs hl
    cases off with
    | zero =>
      cases xs with
      | nil => simp at hxs
      | cons x xs' =>
        cases i with
        | zero => rfl
        | succ j =>
          simpa [writeSlice] using ih 0 xs' j (by omega) (by simpa using hxs) (by simpa using hl)
    | succ n =>
      cases i with
      | zero => omega
      | succ j =>
        have hjn : j + 1 - (n + 1) = j - n := by omega
        rw [hjn]
        simpa [writeSlice] using ih n xs j (by omega) (by omega) (by simpa using hl)

theorem mapSlice_get?_lt (f : α → α) : ∀ (a b : ℕ) (l : List α) (i : ℕ),
    i < a → (mapSlice f a b l).get? i = l.get? i := by
  intro a b l
  induction l generalizing a b with
  | nil => intro i _; simp [mapSlice]
  | cons x l ih =>
    intro i hi
    cases b with
    | zero => simp [mapSlice]
    | succ b =>
      cases a with
      | zero => omega
      | succ a =>
        cases i with
        | zero => rfl
        | succ j => simpa [mapSlice] using ih a b j (by omega)

theorem mapSlice_get?_in (f : α → α) : ∀ (a b : ℕ) (l : List α) (i : ℕ),
    a ≤ i → i < b → (mapSlice f a b l).get? i = (l.get? i).map f := by
  intro a b l
  induction l generalizing a b with
  | nil => intro i _ _; simp [mapSlice]
  | cons x l ih =>
    intro i ha hb
    cases b with
    | zero => omega
    | succ b =>
      cases a with
      | zero =>
        cases i with
        | zero => simp [mapSlice]
        | succ j => simpa [mapSlice] using ih 0 b j (by omega) (by omega)
      | succ a =>
        cases i with
        | zero => omega
        | succ j => simpa [mapSlice] using ih a b j (by omega) (by omega)

theorem length_pySlice (l : List α) (a b : ℕ) :
    (pySlice l a b).length = min b l.length - a := by
  simp [pySlice]

theorem pySlice_congr {l₁ l₂ : List α} (K a b : ℕ) (hb : b ≤ K)
    (h : l₁.take K = l₂.take K) : pySlice l₁ a b = pySlice l₂ a b := by
  unfold pySlice
  have h₁ : l₁.take b = (l₁.take K).take b := by
    rw [List.take_take, min_eq_left hb]
  have h₂ : l₂.take b = (l₂.take K).take b := by
    rw [List.take_take, min_eq_left hb]
  rw [h₁, h₂, h]

/-! ## The sequential interval estimator
(`_estimate_prediction_intervals_worker`, mapie_plot_ts_tutorial.py:288-365)

The MAPIE time-series regressor is an external collaborator (spec §1): it is
embedded as an opaque state type `ρ` together with the three operations the
worker calls on it.  `predictRow` is the per-sample behaviour of
`mapie_ts_regressor.predict(..., alpha=alpha, ensemble=True,
optimize_beta=True, allow_infinite_bounds=True)`: MAPIE returns one point
prediction and one `(lower, upper)` interval row (shape `(len, 2, 1)`) per
query row, so a batched predict is the row-wise map of `predictRow`.  The
fixed keyword arguments (and the current adaptive alpha for ACI) are part of
the opaque state. -/

/-- A feature row of `X_test`. -/
abbrev Feat : Type := List ℚ

/-- The `method=` string of the worker: `'aci'` or `'enbpi'`. -/
inductive Method where
  | aci
  | enbpi
deriving DecidableEq

def methodStr : Method → String
  | .aci => "aci"
  | .enbpi => "enbpi"

/-- Opaque interface of `MapieTimeSeriesRegressor` as used by the worker:
`predictRow` (the per-sample slice of `predict`), `partialFit`
(`partial_fit(X_chunk, y_chunk)`) and `adaptCI`
(`adapt_conformal_inference(X_chunk, y_chunk, gamma)`). -/
structure RegModel (ρ : Type) where
  predictRow : ρ → Feat → ℚ × (PVal × PVal)
  partialFit : ρ → List Feat → List ℚ → ρ
  adaptCI : ρ → List Feat → List ℚ → ℚ → ρ

/-- Configuration of one worker run: `method`, `with_partial_fit`, `gap`, the
shapes of the preallocated arrays (`y_pred_shape = (n)`,
`y_pis_shape = (n, 2, 1)`, the shape MAPIE's un-squeezed output has), and the
two skip flags. -/
structure WorkerCfg where
  method : Method
  withPartialFit : Bool
  gap : ℕ
  n : ℕ
  skipBaseTraining : Bool
  skipAdaptation : Bool
deriving DecidableEq

/-- State carried through the stepping loop: the regressor and the two
preallocated output arrays.  An interval row `(lower, upper)` stands for the
`(2, 1)`-shaped slice `y_pis[i]` of the `(n, 2, 1)` array. -/
structure LState (ρ : Type) where
  reg : ρ
  ypred : List ℚ
  ypis : List (PVal × PVal)

/-- The regressor updates performed at the top of a loop iteration at `step`
(mapie_plot_ts_tutorial.py:336-346): `partial_fit` on the previous chunk when
`with_partial_fit`, then `adapt_conformal_inference` on the previous chunk
with `gamma=0.05` when `method == 'aci'`. -/
def updState (M : RegModel ρ) (cfg : WorkerCfg) (X : List Feat) (y : List ℚ)
    (r : ρ) (s : ℕ) : ρ :=
  let r1 := if cfg.withPartialFit then
      M.partialFit r (pySlice X (s - cfg.gap) s) (pySlice y (s - cfg.gap) s)
    else r
  if cfg.method = Method.aci then
    M.adaptCI r1 (pySlice X (s - cfg.gap) s) (pySlice y (s - cfg.gap) s) (1 / 20)
  else r1

/-- One iteration of the stepping loop at index `step = s`
(mapie_plot_ts_tutorial.py:333-358): update the regressor, predict the chunk
`X_test[s : s + gap]`, write predictions and intervals into the output
arrays, and replace the infinities of the just-written interval slice by
`eps = -1` in place. -/
def loopIter (M : RegModel ρ) (cfg : WorkerCfg) (X : List Feat) (y : List ℚ)
    (c : LState ρ) (s : ℕ) : LState ρ :=
  let r := updState M cfg X y c.reg s
  let rows := (pySlice X s (s + cfg.gap)).map (M.predictRow r)
  let yp := writeSlice c.ypred s (rows.map Prod.fst)
  let pis0 := writeSlice c.ypis s (rows.map Prod.snd)
  let pis := mapSlice replaceInfPair s (s + cfg.gap) pis0
  ⟨r, yp, pis⟩

/-- Run `cnt` further iterations of the stepping loop, the next one at index
`s` (successive indices differ by `gap`, as in
`for step in range(gap, len(X_test), gap)`). -/
def loopSteps (M : RegModel ρ) (cfg : WorkerCfg) (X : List Feat) (y : List ℚ) :
    ℕ → LState ρ → ℕ → LState ρ
  | 0, c, _ => c
  | cnt + 1, c, s => loopSteps M cfg X y cnt (loopIter M cfg X y c s) (s + cfg.gap)

/-- `len(range(gap, len, gap))` for `gap ≥ 1`. -/
def stepsCount (gap len : ℕ) : ℕ :=
  (len - gap + (gap - 1)) / gap

/-- The state before the loop (mapie_plot_ts_tutorial.py:323-329): both
arrays are `np.zeros` of their shapes and chunk 0 (`X_test[:gap]`) is
predicted directly from the base-fitted regressor `r0` and written at the
front; no infinity replacement is applied to chunk 0. -/
def initState (M : RegModel ρ) (cfg : WorkerCfg) (X : List Feat) (r0 : ρ) :
    LState ρ :=
  let rows := (pySlice X 0 cfg.gap).map (M.predictRow r0)
  ⟨r0,
   writeSlice (List.replicate cfg.n 0) 0 (rows.map Prod.fst),
   writeSlice (List.replicate cfg.n (PVal.fin 0, PVal.fin 0)) 0 (rows.map Prod.snd)⟩

/-- The whole stepping phase of the worker: initial chunk, then the loop over
`range(gap, len(X_test), gap)`. -/
def steppingLoop (M : RegModel ρ) (cfg : WorkerCfg) (X : List Feat)
    (y : List ℚ) (r0 : ρ) : LState ρ :=
  loopSteps M cfg X y (stepsCount cfg.gap X.length) (initState M cfg X r0) cfg.gap

/-- The regressor state and raw predictions produced *inside* loop iteration
`k` (for chunk `k ≥ 1`): the bounds of this chunk as they come out of
`predict`, before the infinity replacement. -/
def chunkRaw (M : RegModel ρ) (cfg : WorkerCfg) (X : List Feat) (y : List ℚ)
    (r0 : ρ) (k : ℕ) : List (ℚ × (PVal × PVal)) :=
  let c := loopSteps M cfg X y (k - 1) (initState M cfg X r0) cfg.gap
  let r := updState M cfg X y c.reg (k * cfg.gap)
  (pySlice X (k * cfg.gap) (k * cfg.gap + cfg.gap)).map (M.predictRow r)

/-- The raw predictions of chunk 0, straight from the base-fitted regressor
(mapie_plot_ts_tutorial.py:327-329). -/
def chunk0Raw (M : RegModel ρ) (cfg : WorkerCfg) (X : List Feat) (r0 : ρ) :
    List (ℚ × (PVal × PVal)) :=
  (pySlice X 0 cfg.gap).map (M.predictRow r0)

theorem loopSteps_add (M : RegModel ρ) (cfg : WorkerCfg) (X : List Feat)
    (y : List ℚ) (a : ℕ) : ∀ (b : ℕ) (c : LState ρ) (s : ℕ),
    loopSteps M cfg X y (a + b) c s
      = loopSteps M cfg X y b (loopSteps M cfg X y a c s) (s + a * cfg.gap) := by
  induction a with
  | zero => intro b c s; simp [loopSteps]
  | succ a ih =>
    intro b c s
    have h1 : a + 1 + b = (a + b) + 1 := by omega
    rw [h1]
    show loopSteps M cfg X y (a + b) (loopIter M cfg X y c s) (s + cfg.gap)
        = loopSteps M cfg X y b (loopSteps M cfg X y a (loopIter M cfg X y c s) (s + cfg.gap))
            (s + (a + 1) * cfg.gap)
    rw [ih b (loopIter M cfg X y c s) (s + cfg.gap)]
    congr 1
    ring

theorem loopIter_lengths (M : RegModel ρ) (cfg : WorkerCfg) (X : List Feat)
    (y : List ℚ) (c : LState ρ) (s : ℕ) :
    (loopIter M cfg X y c s).ypred.length = c.ypred.length
      ∧ (loopIter M cfg X y c s).ypis.length = c.ypis.length := by
  constructor
  · simp [loopIter, length_writeSlice]
  · simp [loopIter, length_mapSlice, length_writeSlice]

theorem loopSteps_lengths (M : RegModel ρ) (cfg : WorkerCfg) (X : List Feat)
    (y : List ℚ) : ∀ (b : ℕ) (c : LState ρ) (s : ℕ),
    (loopSteps M cfg X y b c s).ypred.length = c.ypred.length
      ∧ (loopSteps M cfg X y b c s).ypis.length = c.ypis.length := by
  intro b
  induction b with
  | zero => intro c s; exact ⟨rfl, rfl⟩
  | succ b ih =>
    intro c s
    have h := ih (loopIter M cfg X y c s) (s + cfg.gap)
    have h' := loopIter_lengths M cfg X y c s
    exact ⟨h.1.trans h'.1, h.2.trans h'.2⟩

/-- Later loop iterations never touch array entries below the index at which
they start writing: iteration at `step = s` only writes (and replaces
infinities) at indices `≥ s`. -/
theorem loopSteps_get?_below (M : RegModel ρ) (cfg : WorkerCfg) (X : List Feat)
    (y : List ℚ) (m : ℕ) : ∀ (b : ℕ) (c : LState ρ) (s : ℕ), m ≤ s →
    ∀ i, i < m →
      (loopSteps M cfg X y b c s).ypred.get? i = c.ypred.get? i
        ∧ (loopSteps M cfg X y b c s).ypis.get? i = c.ypis.get? i := by
  intro b
  induction b with
  | zero => intro c s _ i _; exact ⟨rfl, rfl⟩
  | succ b ih =>
    intro c s hs i hi
    have hrec := ih (loopIter M cfg X y c s) (s + cfg.gap) (by omega) i hi
    refine ⟨hrec.1.trans ?_, hrec.2.trans ?_⟩
    · simp only [loopIter]
      exact writeSlice_get?_lt _ _ _ _ (by omega)
    · simp only [loopIter]
      rw [mapSlice_get?_lt _ _ _ _ _ (by omega)]
      exact writeSlice_get?_lt _ _ _ _ (by omega)

/-- The loop body at `step = s` reads the true targets only through the slice
`y_test[s - gap : s]`: two target vectors agreeing up to index `K ≥ s`
produce the same iteration. -/
theorem loopIter_congr_y (M : RegModel ρ) (cfg : WorkerCfg) (X : List Feat)
    {y₁ y₂ : List ℚ} (K : ℕ) (hy : y₁.take K = y₂.take K) (c : LState ρ)
    (s : ℕ) (hs : s ≤ K) :
    loopIter M cfg X y₁ c s = loopIter M cfg X y₂ c s := by
  have hsl : pySlice y₁ (s - cfg.gap) s = pySlice y₂ (s - cfg.gap) s :=
    pySlice_congr K _ _ hs hy
  simp only [loopIter, updState, hsl]

/-- Iterations whose step indices all stay `≤ K` depend on the targets only
through `y_test[:K]`. -/
theorem loopSteps_congr_y (M : RegModel ρ) (cfg : WorkerCfg) (X : List Feat)
    {y₁ y₂ : List ℚ} (K : ℕ) (hy : y₁.take K = y₂.take K) :
    ∀ (a : ℕ) (c : LState ρ) (s : ℕ), (∀ i, i < a → s + cfg.gap * i ≤ K) →
    loopSteps M cfg X y₁ a c s = loopSteps M cfg X y₂ a c s := by
  intro a
  induction a with
  | zero => intro c s _; rfl
  | succ a ih =>
    intro c s hbound
    have hs : s ≤ K := by
      have := hbound 0 (by omega)
      simpa using this
    show loopSteps M cfg X y₁ a (loopIter M cfg X y₁ c s) (s + cfg.gap)
        = loopSteps M cfg X y₂ a (loopIter M cfg X y₂ c s) (s + cfg.gap)
    rw [loopIter_congr_y M cfg X K hy c s hs]
    refine ih (loopIter M cfg X y₂ c s) (s + cfg.gap) ?_
    intro i hi
    have := hbound (i + 1) (by omega)
    calc s + cfg.gap + cfg.gap * i = s + cfg.gap * (i + 1) := by ring
      _ ≤ K := this

/-- Chunk `k` (for `(k+1)*gap ≤ len(X_test)`) is processed by the loop:
`k` does not exceed the number of iterations of `range(gap, len, gap)`. -/
theorem chunk_le_stepsCount (gap len k : ℕ) (hg : 1 ≤ gap)
    (hkn : (k + 1) * gap ≤ len) : k ≤ stepsCount gap len := by
  have hkg : k * gap + gap ≤ len := by
    calc k * gap + gap = (k + 1) * gap := by ring
      _ ≤ len := hkn
  have hmul : k * gap ≤ len - gap + (gap - 1) := by omega
  exact (Nat.le_div_iff_mul_le (by omega)).mpr hmul

/-- Claim C2: in the stepping loop, the point prediction and the interval
written for chunk `k` (array indices `k*gap ≤ i < (k+1)*gap`) are identical
between two runs whose true-target sequences agree on the targets of chunks
`0..k-1` (indices `< k*gap`), whatever the targets of later chunks are: a
chunk's output depends only on the frozen base regressor `r0`, the query
features `X`, and the targets of the strictly earlier chunks — no lookahead. -/
theorem C2_stepping_causality (M : RegModel ρ) (cfg : WorkerCfg) (X : List Feat)
    (y₁ y₂ : List ℚ) (r0 : ρ) (k : ℕ)
    (hg : 1 ≤ cfg.gap) (hkn : (k + 1) * cfg.gap ≤ X.length)
    (hy : y₁.take (k * cfg.gap) = y₂.take (k * cfg.gap)) :
    ∀ i, k * cfg.gap ≤ i → i < (k + 1) * cfg.gap →
      (steppingLoop M cfg X y₁ r0).ypred.get? i
          = (steppingLoop M cfg X y₂ r0).ypred.get? i
        ∧ (steppingLoop M cfg X y₁ r0).ypis.get? i
          = (steppingLoop M cfg X y₂ r0).ypis.get? i := by
  intro i hik hik'
  set cnt := stepsCount cfg.gap X.length with hcnt
  have hk : k ≤ cnt := chunk_le_stepsCount cfg.gap X.length k hg hkn
  have hsplit : cnt = k + (cnt - k) := by omega
  have hprefix :
      loopSteps M cfg X y₁ k (initState M cfg X r0) cfg.gap
        = loopSteps M cfg X y₂ k (initState M cfg X r0) cfg.gap := by
    refine loopSteps_congr_y M cfg X (k * cfg.gap) hy k (initState M cfg X r0) cfg.gap ?_
    intro j hj
    calc cfg.gap + cfg.gap * j = cfg.gap * (j + 1) := by ring
      _ ≤ cfg.gap * k := Nat.mul_le_mul_left cfg.gap (by omega)
      _ = k * cfg.gap := by ring
  have hi_lt : i < cfg.gap + k * cfg.gap := by
    have : (k + 1) * cfg.gap = cfg.gap + k * cfg.gap := by ring
    omega
  have run : ∀ y : List ℚ,
      (steppingLoop M cfg X y r0).ypred.get? i
          = (loopSteps M cfg X y k (initState M cfg X r0) cfg.gap).ypred.get? i
        ∧ (steppingLoop M cfg X y r0).ypis.get? i
          = (loopSteps M cfg X y k (initState M cfg X r0) cfg.gap).ypis.get? i := by
    intro y
    have hrw : steppingLoop M cfg X y r0
        = loopSteps M cfg X y (cnt - k)
            (loopSteps M cfg X y k (initState M cfg X r0) cfg.gap)
            (cfg.gap + k * cfg.gap) := by
      unfold steppingLoop
      rw [← hcnt, hsplit, loopSteps_add]
      congr 1
      omega
    rw [hrw]
    exact loopSteps_get?_below M cfg X y (cfg.gap + k * cfg.gap) (cnt - k) _ _
      (le_refl _) i hi_lt
  have h₁ := run y₁
  have h₂ := run y₂
  rw [h₁.1, h₁.2, h₂.1, h₂.2, hprefix]
  exact ⟨rfl, rfl⟩

/-- Claim C3 (amended): the sentinel substitution `arr[np.isinf(arr)] = -1`
is applied to the interval bounds of every chunk processed *inside* the
stepping loop (chunks `k ≥ 1`): the final array stores exactly the raw
bounds of chunk `k` with every infinite bound replaced by the sentinel `-1`
and every finite bound passed through unchanged.  Chunk 0, predicted before
the loop (mapie_plot_ts_tutorial.py:327-329), is stored verbatim: no
substitution is applied to it, infinite bounds included. -/
theorem C3_sentinel_substitution_amended (M : RegModel ρ) (cfg : WorkerCfg)
    (X : List Feat) (y : List ℚ) (r0 : ρ) (k : ℕ)
    (hg : 1 ≤ cfg.gap) (hn : cfg.n = X.length) (hk : 1 ≤ k)
    (hkn : (k + 1) * cfg.gap ≤ X.length) :
    (∀ j, j < cfg.gap →
        (steppingLoop M cfg X y r0).ypis.get? (k * cfg.gap + j)
          = ((chunkRaw M cfg X y r0 k).map (fun rr => replaceInfPair rr.2)).get? j)
      ∧ (∀ j, j < cfg.gap →
          (steppingLoop M cfg X y r0).ypis.get? j
            = ((chunk0Raw M cfg X r0).map Prod.snd).get? j)
      ∧ replaceInf PVal.pinf = PVal.fin (-1)
      ∧ replaceInf PVal.ninf = PVal.fin (-1)
      ∧ (∀ q : ℚ, replaceInf (PVal.fin q) = PVal.fin q) := by
  obtain ⟨k', rfl⟩ : ∃ k', k = k' + 1 := ⟨k - 1, by omega⟩
  set cnt := stepsCount cfg.gap X.length with hcnt
  have hk_le : k' + 1 ≤ cnt := chunk_le_stepsCount cfg.gap X.length (k' + 1) hg hkn
  have hlen_pis : ∀ (y' : List ℚ) (b : ℕ) (s : ℕ),
      (loopSteps M cfg X y' b (initState M cfg X r0) s).ypis.length = X.length := by
    intro y' b s
    rw [(loopSteps_lengths M cfg X y' b (initState M cfg X r0) s).2]
    simp [initState, length_writeSlice, hn]
  refine ⟨?_, ?_, rfl, rfl, fun q => rfl⟩
  · -- chunks processed inside the loop
    intro j hj
    have hsplit : cnt = (k' + 1) + (cnt - (k' + 1)) := by omega
    have hrw : steppingLoop M cfg X y r0
        = loopSteps M cfg X y (cnt - (k' + 1))
            (loopSteps M cfg X y (k' + 1) (initState M cfg X r0) cfg.gap)
            (cfg.gap + (k' + 1) * cfg.gap) := by
      unfold steppingLoop
      rw [← hcnt, hsplit, loopSteps_add]
      congr 1
      omega
    have hi_lt : (k' + 1) * cfg.gap + j < cfg.gap + (k' + 1) * cfg.gap := by omega
    rw [hrw]
    rw [(loopSteps_get?_below M cfg X y (cfg.gap + (k' + 1) * cfg.gap) _ _ _
      (le_refl _) _ hi_lt).2]
    -- peel off the iteration that processes chunk k'+1
    have hpeel : loopSteps M cfg X y (k' + 1) (initState M cfg X r0) cfg.gap
        = loopIter M cfg X y
            (loopSteps M cfg X y k' (initState M cfg X r0) cfg.gap)
            (cfg.gap + k' * cfg.gap) := by
      rw [loopSteps_add M cfg X y k' 1 (initState M cfg X r0) cfg.gap]
      rfl
    have hpos : cfg.gap + k' * cfg.gap = (k' + 1) * cfg.gap := by ring
    rw [hpeel, hpos]
    set c := loopSteps M cfg X y k' (initState M cfg X r0) cfg.gap with hc
    set s := (k' + 1) * cfg.gap with hs
    set r := updState M cfg X y c.reg s with hr
    set rows := (pySlice X s (s + cfg.gap)).map (M.predictRow r) with hrows
    have hrows_len : rows.length = cfg.gap := by
      rw [hrows, List.length_map, length_pySlice]
      have : min (s + cfg.gap) X.length = s + cfg.gap := by
        apply min_eq_left
        calc s + cfg.gap = (k' + 1 + 1) * cfg.gap := by rw [hs]; ring
          _ ≤ X.length := hkn
      omega
    have hc_len : c.ypis.length = X.length := hlen_pis y k' cfg.gap
    have hlt_len : s + j < X.length := by
      have : s + cfg.gap ≤ X.length := by
        calc s + cfg.gap = (k' + 1 + 1) * cfg.gap := by rw [hs]; ring
          _ ≤ X.length := hkn
      omega
    show (mapSlice replaceInfPair s (s + cfg.gap)
        (writeSlice c.ypis s (rows.map Prod.snd))).get? (s + j) = _
    rw [mapSlice_get?_in replaceInfPair s (s + cfg.gap) _ (s + j) (by omega) (by omega)]
    rw [writeSlice_get?_ge _ s (rows.map Prod.snd) (s + j) (by omega)
      (by simpa [hrows_len] using hj)
      (by rw [hc_len]; exact hlt_len)]
    have hjj : s + j - s = j := by omega
    rw [hjj]
    show ((rows.map Prod.snd).get? j).map replaceInfPair
        = ((chunkRaw M cfg X y r0 (k' + 1)).map (fun rr => replaceInfPair rr.2)).get? j
    have hideq : chunkRaw M cfg X y r0 (k' + 1) = rows := by
      rw [hrows, hr, hs, hc]
      rfl
    rw [hideq]
    simp only [List.get?_eq_getElem?, List.getElem?_map, Option.map_map]
    rfl
  · -- chunk 0 is stored verbatim
    intro j hj
    have hgl : cfg.gap ≤ X.length := by
      have h2 : cfg.gap ≤ (k' + 1 + 1) * cfg.gap := by
        calc cfg.gap = 1 * cfg.gap := by ring
          _ ≤ (k' + 1 + 1) * cfg.gap := Nat.mul_le_mul_right cfg.gap (by omega)
      omega
    have hrw : steppingLoop M cfg X y r0
        = loopSteps M cfg X y cnt (initState M cfg X r0) cfg.gap := rfl
    rw [hrw,
      (loopSteps_get?_below M cfg X y cfg.gap cnt (initState M cfg X r0) cfg.gap
        (le_refl _) j hj).2]
    show (writeSlice (List.replicate cfg.n (PVal.fin 0, PVal.fin 0)) 0
        (((pySlice X 0 cfg.gap).map (M.predictRow r0)).map Prod.snd)).get? j = _
    rw [writeSlice_get?_ge _ 0 _ j (by omega)
      (by simp [length_pySlice]; omega)
      (by simp [hn]; omega)]
    rfl

/-- A concrete regressor instance whose state accumulates the targets it has
seen; used to exercise the stepping loop on concrete inputs. -/
def c2Reg : RegModel ℚ where
  predictRow := fun r x => (r + x.headD 0, (PVal.fin r, PVal.fin (r + 1)))
  partialFit := fun r _ ys => r + ys.sum
  adaptCI := fun r _ ys g => r + g * ys.sum

def c2cfg : WorkerCfg :=
  { method := Method.aci, withPartialFit := true, gap := 1, n := 3,
    skipBaseTraining := true, skipAdaptation := true }

/-- Witness for C2: a run on three query rows with `gap = 1` where the
targets of steps `> 1` are corrupted (`2` replaced by `5`); chunk 1's
prediction and interval agree between the two runs. -/
theorem C2_stepping_causality_witness :
    (steppingLoop c2Reg c2cfg [[10], [20], [30]] [0, 1, 2] 0).ypred.get? 1
        = (steppingLoop c2Reg c2cfg [[10], [20], [30]] [0, 1, 5] 0).ypred.get? 1
      ∧ (steppingLoop c2Reg c2cfg [[10], [20], [30]] [0, 1, 2] 0).ypis.get? 1
        = (steppingLoop c2Reg c2cfg [[10], [20], [30]] [0, 1, 5] 0).ypis.get? 1 :=
  C2_stepping_causality c2Reg c2cfg [[10], [20], [30]] [0, 1, 2] [0, 1, 5] 0 1
    (by decide) (by decide) (by decide) 1 (by decide) (by decide)

/-- A regressor that emits an infinite lower bound on every prediction. -/
def c3Reg : RegModel Unit where
  predictRow := fun _ _ => (0, (PVal.pinf, PVal.fin 0))
  partialFit := fun r _ _ => r
  adaptCI := fun r _ _ _ => r

def c3cfg : WorkerCfg :=
  { method := Method.aci, withPartialFit := true, gap := 1, n := 2,
    skipBaseTraining := true, skipAdaptation := true }

/-- Counterexample to C3 as stated: for chunk 0 the worker performs no
sentinel substitution, so an infinite bound produced for the first chunk
survives into the final interval array instead of being replaced by `-1`
(while the same bound produced for chunk 1 is replaced). -/
theorem C3_counterexample_chunk0_infinity_survives :
    (steppingLoop c3Reg c3cfg [[0], [1]] [0, 1] ()).ypis.get? 0
        = some (PVal.pinf, PVal.fin 0)
      ∧ (steppingLoop c3Reg c3cfg [[0], [1]] [0, 1] ()).ypis.get? 1
        = some (PVal.fin (-1), PVal.fin 0)
      ∧ PVal.pinf ≠ PVal.fin (-1) := by
  refine ⟨?_, ?_, by decide⟩ <;> decide

/-- Witness for the amended C3 at a concrete run: chunk 1's stored row is its
raw prediction with infinities replaced, and chunk 0's stored row is its raw
prediction unchanged. -/
theorem C3_sentinel_substitution_amended_witness :
    (steppingLoop c3Reg c3cfg [[0], [1]] [0, 1] ()).ypis.get? (1 * c3cfg.gap + 0)
        = ((chunkRaw c3Reg c3cfg [[0], [1]] [0, 1] () 1).map
            (fun rr => replaceInfPair rr.2)).get? 0
      ∧ (steppingLoop c3Reg c3cfg [[0], [1]] [0, 1] ()).ypis.get? 0
        = ((chunk0Raw c3Reg c3cfg [[0], [1]] ()).map Prod.snd).get? 0 :=
  ⟨(C3_sentinel_substitution_amended c3Reg c3cfg [[0], [1]] [0, 1] () 1
      (by decide) (by decide) (by decide) (by decide)).1 0 (by decide),
   (C3_sentinel_substitution_amended c3Reg c3cfg [[0], [1]] [0, 1] () 1
      (by decide) (by decide) (by decide) (by decide)).2.1 0 (by decide)⟩

/-! ## Blob store and I/O helpers (mapie_plot_ts_tutorial.py:66-72, 566-597)

The blob store (spec §2, §6) is a key-value map from path strings to stored
objects.  Python is dynamically typed, so a stored object (`PyVal`) is a
string, a pickled regressor, or a saved numpy array; `os.path.join` raises
`TypeError` when its second argument is not a string — which is exactly what
happens at the buggy call site examined in claim C1. -/

inductive PyErr where
  | fileNotFound
  | typeError
  | assertionError
  | nameError
deriving DecidableEq

/-- A Python value as it occurs in the storage layer: a (path/filename)
string, a pickled regressor object, a 1-D float array (`y_pred`), or an
interval array (`y_pis`). -/
inductive PyVal (ρ : Type) where
  | str (s : String)
  | reg (r : ρ)
  | arrQ (a : List ℚ)
  | arrPis (a : List (PVal × PVal))
deriving DecidableEq

/-- The blob store: newest save first; `lookup` finds the newest value. -/
abbrev Store (ρ : Type) : Type := List (String × PyVal ρ)

def BASE_FOLDER : String := "mapie_storage"
def ARRAYS_FOLDER : String := BASE_FOLDER ++ "/arrays"
def MODELS_FOLDER : String := BASE_FOLDER ++ "/models"
def N_POINTS_TEMP : ℕ := 100

/-- `os.path.join(folder, filename)`: raises `TypeError` unless `filename`
is a string. -/
def os_path_join (folder : String) (filename : PyVal ρ) : Except PyErr String :=
  match filename with
  | .str s => .ok (folder ++ "/" ++ s)
  | _ => .error .typeError

/-- `get_array_savepath` (mapie_plot_ts_tutorial.py:572-573).  The parameter
is kept dynamically typed because the worker's buggy call to `save_array`
routes a numpy array into it. -/
def get_array_savepath (filename : PyVal ρ) : Except PyErr String :=
  os_path_join ARRAYS_FOLDER filename

/-- `get_model_savepath` (mapie_plot_ts_tutorial.py:584-585); every caller
passes a string. -/
def get_model_savepath (filename : String) : String :=
  MODELS_FOLDER ++ "/" ++ filename

/-- `get_model` (mapie_plot_ts_tutorial.py:576-577): unpickle the blob at the
model path, raising `FileNotFoundError` when absent. -/
def get_model (store : Store ρ) (filename : String) : Except PyErr (PyVal ρ) :=
  match List.lookup (get_model_savepath filename) store with
  | some v => .ok v
  | none => .error .fileNotFound

/-- `save_model(model, filename)` (mapie_plot_ts_tutorial.py:580-581). -/
def save_model (r : ρ) (filename : String) (store : Store ρ) : Store ρ :=
  (get_model_savepath filename, PyVal.reg r) :: store

/-- `load_array(filename)` (mapie_plot_ts_tutorial.py:588-589). -/
def load_array (store : Store ρ) (filename : String) : Except PyErr (PyVal ρ) :=
  match get_array_savepath (PyVal.str filename : PyVal ρ) with
  | .error e => .error e
  | .ok p =>
    match List.lookup p store with
    | some v => .ok v
    | none => .error .fileNotFound

/-- `save_array(array, filename)` (mapie_plot_ts_tutorial.py:592-593):
`np.save(get_array_savepath(filename), array)`.  Note the parameter order:
the first parameter is the array, the second the filename. -/
def save_array (array : PyVal ρ) (filename : PyVal ρ) (store : Store ρ) :
    Except PyErr (Store ρ) :=
  match get_array_savepath filename with
  | .error e => .error e
  | .ok p => .ok ((p, array) :: store)

/-- `_estimate_prediction_intervals_worker`
(mapie_plot_ts_tutorial.py:288-365).

* `mkReg` abstracts `MapieTimeSeriesRegressor(model, method=method,
  cv=cv_mapie_ts, agg_function="mean", n_jobs=-1)` (line 306-308): the base
  model and the bootstrap are fixed per run, so the constructor only needs
  the method.
* `fit` abstracts `mapie_ts_regressor.fit(X_train, y_train)` (line 320); the
  training data parameters default to `None` in the source, hence the
  `Option`s.
* When `skip_adaptation` is set, the worker first tries to load both cached
  arrays and short-circuits, falling through on `FileNotFoundError`
  (lines 298-304); when `skip_base_training` is set it tries to load the
  fitted regressor, falling back to fitting on a miss (lines 310-321).
* After the stepping phase it squeezes `y_pis` (a shape-level operation,
  `npSqueeze`, which does not change the stored pair rows), calls
  `save_array(filename_arr_y_pred, y_pred)` and
  `save_array(filename_arr_y_pis, y_pis)` — with the arguments in this
  order, matching the source — saves the adapted model, and returns
  `(y_pred, y_pis)` (lines 360-365).
* A pickled blob of the wrong kind at a model key surfaces as a type error;
  no run in this development stores one. -/
def worker (M : RegModel ρ) (mkReg : Method → ρ)
    (fit : ρ → Option (List Feat) → Option (List ℚ) → ρ)
    (cfg : WorkerCfg) (X_test : List Feat) (y_test : List ℚ)
    (X_train : Option (List Feat)) (y_train : Option (List ℚ))
    (store : Store ρ) : Except PyErr (Store ρ × PyVal ρ × PyVal ρ) :=
  let pfit_str := if cfg.withPartialFit then "pfit" else "no_pfit"
  let mstr := methodStr cfg.method
  let nstr := toString N_POINTS_TEMP
  let filename_model_base := "mapie_" ++ mstr ++ "_" ++ nstr ++ ".model"
  let filename_model_adapted :=
    "model_" ++ mstr ++ "_" ++ pfit_str ++ "_" ++ nstr ++ ".model"
  let filename_arr_y_pred :=
    "y_pred_" ++ mstr ++ "_" ++ pfit_str ++ "_" ++ nstr ++ ".npy"
  let filename_arr_y_pis :=
    "y_pis_" ++ mstr ++ "_" ++ pfit_str ++ "_" ++ nstr ++ ".npy"
  let rest : Except PyErr (Store ρ × PyVal ρ × PyVal ρ) :=
    let r0 := mkReg cfg.method
    let based : Except PyErr (ρ × Store ρ) :=
      let fitAndSave : Except PyErr (ρ × Store ρ) :=
        let r := fit r0 X_train y_train
        .ok (r, save_model r filename_model_base store)
      if cfg.skipBaseTraining then
        match get_model store filename_model_base with
        | .ok (PyVal.reg r) => .ok (r, store)
        | .ok _ => .error .typeError
        | .error _ => fitAndSave
      else fitAndSave
    match based with
    | .error e => .error e
    | .ok (reg2, store2) =>
      let fin := steppingLoop M cfg X_test y_test reg2
      match save_array (PyVal.str filename_arr_y_pred) (PyVal.arrQ fin.ypred) store2 with
      | .error e => .error e
      | .ok store3 =>
        match save_array (PyVal.str filename_arr_y_pis) (PyVal.arrPis fin.ypis) store3 with
        | .error e => .error e
        | .ok store4 =>
          let store5 := save_model fin.reg filename_model_adapted store4
          .ok (store5, PyVal.arrQ fin.ypred, PyVal.arrPis fin.ypis)
  if cfg.skipAdaptation then
    match load_array store filename_arr_y_pred, load_array store filename_arr_y_pis with
    | .ok a, .ok b => .ok (store, a, b)
    | _, _ => rest
  else rest

/-- A trivial concrete regressor used to run the worker end to end. -/
def c1Reg : RegModel Unit where
  predictRow := fun _ _ => (0, (PVal.fin 0, PVal.fin 0))
  partialFit := fun r _ _ => r
  adaptCI := fun r _ _ _ => r

def c1cfg : WorkerCfg :=
  { method := Method.aci, withPartialFit := true, gap := 1, n := 2,
    skipBaseTraining := true, skipAdaptation := true }

/-- Claim C1: a worker run that executes the stepping loop (both caches
empty, two query rows, `gap = 1`) reaches
`save_array(filename_arr_y_pred, y_pred)` (mapie_plot_ts_tutorial.py:361)
and raises `TypeError` there, because `save_array`'s parameters are
`(array, filename)` (line 592) while the call passes `(filename, array)`:
`np.save` receives the prediction array as its path.  The run therefore
persists neither array nor the adapted regressor and never returns
`(y_pred, y_pis)`. -/
theorem C1_save_array_arguments_swapped :
    worker c1Reg (fun _ => ()) (fun r _ _ => r) c1cfg [[0], [1]] [0, 1]
        none none [] = Except.error PyErr.typeError := by
  rfl

/-! ## Base model provider (`train_base_model`, mapie_plot_ts_tutorial.py:92-141) -/

/-- `train_base_model(model_class, model_params_choices, model_init_params,
X_train, y_train, load_trained_model, cv_n_iter)`.

* `fitCV` abstracts the `RandomizedSearchCV` block (lines 123-138): build the
  estimator, search with a `TimeSeriesSplit`, fit, and take
  `best_estimator_`; the `model_init_params`/`random_state` handling
  (lines 101-105) is internal to this opaque training step.
* When `load_trained_model` is set the cached model is unpickled and
  returned; `FileNotFoundError` falls through to training (lines 109-118).
* Line 120 asserts that `X_train`, `y_train` and `model_params_choices` are
  all not `None` before training.
* The freshly fitted model is saved and returned (lines 140-141).
* A pickled blob of a non-model kind at the model key would surface later as
  a type error; no run in this development stores one. -/
def train_base_model (fitCV : List Feat → List ℚ → π → μ)
    (modelClassName : String) (model_params_choices : Option π)
    (X_train : Option (List Feat)) (y_train : Option (List ℚ))
    (load_trained_model : Bool) (store : Store μ) :
    Except PyErr (Store μ × μ) :=
  let filename_base_model :=
    "base_" ++ modelClassName ++ "_" ++ toString N_POINTS_TEMP ++ ".model"
  let trainAndSave : Except PyErr (Store μ × μ) :=
    match X_train, y_train, model_params_choices with
    | some x, some y, some p =>
      let model := fitCV x y p
      .ok (save_model model filename_base_model store, model)
    | _, _, _ => .error .assertionError
  if load_trained_model then
    match get_model store filename_base_model with
    | .ok (PyVal.reg m) => .ok (store, m)
    | .ok _ => .error .typeError
    | .error _ => trainAndSave
  else trainAndSave

/-- Claim C9: when loading the cached fitted model is requested but the blob
store misses (`FileNotFoundError`), the error does not propagate: the
function falls back to fitting from the training data, returns the newly
fitted model, and behaves exactly as if skipping had not been requested. -/
theorem C9_cache_miss_falls_back_to_fitting (fitCV : List Feat → List ℚ → π → μ)
    (modelClassName : String) (p : π) (x : List Feat) (yv : List ℚ)
    (model_params_choices : Option π) (X_train : Option (List Feat))
    (y_train : Option (List ℚ)) (store : Store μ)
    (hmiss : List.lookup (get_model_savepath
        ("base_" ++ modelClassName ++ "_" ++ toString N_POINTS_TEMP ++ ".model"))
        store = none)
    (hx : X_train = some x) (hy : y_train = some yv)
    (hp : model_params_choices = some p) :
    train_base_model fitCV modelClassName model_params_choices X_train y_train
        true store
      = train_base_model fitCV modelClassName model_params_choices X_train
          y_train false store
    ∧ train_base_model fitCV modelClassName model_params_choices X_train
        y_train true store
      = Except.ok
          (save_model (fitCV x yv p)
            ("base_" ++ modelClassName ++ "_" ++ toString N_POINTS_TEMP ++ ".model")
            store,
           fitCV x yv p) := by
  subst hx hy hp
  constructor
  · simp [train_base_model, get_model, hmiss]
  · simp [train_base_model, get_model, hmiss]

/-- Witness for C9 at a concrete input: an empty store (cache miss), concrete
training data, and a concrete training function. -/
theorem C9_cache_miss_falls_back_to_fitting_witness :
    train_base_model (fun x _ p => x.length + p) "RandomForestRegressor"
        (some 3) (some [[1], [2]]) (some [5, 6]) true []
      = train_base_model (fun x _ p => x.length + p) "RandomForestRegressor"
          (some 3) (some [[1], [2]]) (some [5, 6]) false []
    ∧ train_base_model (fun x _ p => x.length + p) "RandomForestRegressor"
        (some 3) (some [[1], [2]]) (some [5, 6]) true []
      = Except.ok
          (save_model ((fun (x : List Feat) (_ : List ℚ) (p : ℕ) => x.length + p)
              [[1], [2]] [5, 6] 3)
            ("base_" ++ "RandomForestRegressor" ++ "_" ++ toString N_POINTS_TEMP ++ ".model")
            [],
           (fun (x : List Feat) (_ : List ℚ) (p : ℕ) => x.length + p)
              [[1], [2]] [5, 6] 3) :=
  C9_cache_miss_falls_back_to_fitting (fun x _ p => x.length + p)
    "RandomForestRegressor" 3 [[1], [2]] [5, 6] (some 3) (some [[1], [2]])
    (some [5, 6]) [] rfl rfl rfl rfl

/-- Claim C4: the worker returns `y_pis.squeeze()`
(mapie_plot_ts_tutorial.py:360, likewise :247).  At the shape level, numpy's
unconditional squeeze removes *every* axis of length 1.  For a query set of
length 1 the interval array has shape `(1, 2, 1)` and squeezing yields
`(2,)`: the sample axis is removed together with the unit output axis, so
the returned array does not retain a leading axis of the query-set size.
For `n ≥ 2` (here `n = 3`) only the unit output axis is dropped. -/
theorem C4_squeeze_drops_sample_axis :
    npSqueeze [1, 2, 1] = [2]
      ∧ (npSqueeze [1, 2, 1]).headD 0 ≠ 1
      ∧ npSqueeze [3, 2, 1] = [3, 2] := by
  refine ⟨rfl, ?_, rfl⟩
  decide

/-! ## Method registry (`UQ_Comparer`, compare_methods.py:71-81)

A Python class dictionary (`cls.__dict__`) is embedded as an association
list from attribute name to attribute value. -/

/-- Python's `str.startswith(pre)`: `pre` is a prefix of the character
sequence of `s` (case-sensitive, on the full name). -/
def pyStartswith (s pre : String) : Bool :=
  pre.data.isPrefixOf s.data

/-- `starfilter(pred, iterable)` from `helpers.py`.  Modelled from the spec:
`helpers.py` itself is not under `src/`; the registry (spec §4.1) selects
"exactly those names starting with the prefix", so `starfilter` filters the
`(name, value)` pairs of `cls.__dict__.items()` by the predicate applied to
the unpacked pair. -/
def starfilter (p : String → ν → Bool) (l : List (String × ν)) :
    List (String × ν) :=
  l.filter fun kv => p kv.1 kv.2

namespace UQ_Comparer

/-- `UQ_Comparer._get_methods_by_prefix(prefix)`
(compare_methods.py:79-81): `dict(starfilter(lambda k, v:
k.startswith(prefix), cls.__dict__.items()))`. -/
def getMethodsByPre (pre : String) (classDict : List (String × ν)) :
    List (String × ν) :=
  starfilter (fun k _ => pyStartswith k pre) classDict

/-- `UQ_Comparer.get_posthoc_methods()` (compare_methods.py:71-73). -/
def get_posthoc_methods (classDict : List (String × ν)) : List (String × ν) :=
  getMethodsByPre "posthoc" classDict

/-- `UQ_Comparer.get_native_methods()` (compare_methods.py:75-77). -/
def get_native_methods (classDict : List (String × ν)) : List (String × ν) :=
  getMethodsByPre "native" classDict

end UQ_Comparer

/-- The class dictionary of a comparer defining `native_foo`, `posthoc_bar`
and `helper_baz` (spec §8, property 1). -/
def exampleComparerDict : List (String × ℕ) :=
  [("native_foo", 1), ("posthoc_bar", 2), ("helper_baz", 3)]

/-- Claim C5: `get_native_methods` / `get_posthoc_methods` return exactly the
class attributes whose names start with `native` / `posthoc` (case-sensitive
prefix match on the full name); on the example comparer they return exactly
`{native_foo}` and `{posthoc_bar}`, and `helper_baz` appears in neither. -/
theorem C5_prefix_dispatch {ν : Type} (d : List (String × ν)) (k : String)
    (v : ν) :
    ((k, v) ∈ UQ_Comparer.get_native_methods d
        ↔ ((k, v) ∈ d ∧ pyStartswith k "native" = true))
      ∧ ((k, v) ∈ UQ_Comparer.get_posthoc_methods d
        ↔ ((k, v) ∈ d ∧ pyStartswith k "posthoc" = true))
      ∧ UQ_Comparer.get_native_methods exampleComparerDict = [("native_foo", 1)]
      ∧ UQ_Comparer.get_posthoc_methods exampleComparerDict = [("posthoc_bar", 2)]
      ∧ ("helper_baz", 3) ∉ UQ_Comparer.get_native_methods exampleComparerDict
      ∧ ("helper_baz", 3) ∉ UQ_Comparer.get_posthoc_methods exampleComparerDict := by
  refine ⟨?_, ?_, by decide, by decide, by decide, by decide⟩
  · simp [UQ_Comparer.get_native_methods, UQ_Comparer.getMethodsByPre,
      starfilter, List.mem_filter]
  · simp [UQ_Comparer.get_posthoc_methods, UQ_Comparer.getMethodsByPre,
      starfilter, List.mem_filter]

/-! ## UQ method invoker (`UQ_Comparer._run_methods`, compare_methods.py:92-122) -/

/-- `uq_type` of a `_run_methods` call: `"posthoc"` or `"native"`. -/
inductive UQType where
  | posthoc
  | native
deriving DecidableEq

def uqTypeStr : UQType → String
  | .posthoc => "posthoc"
  | .native => "native"

/-- The positional arguments `_run_methods` passes to a UQ method
(compare_methods.py:116-119): `method(base_model, X_train, y_train, X_test)`
for posthoc methods (the base model trained at line 107) and
`method(X_train, y_train, X_test)` for native methods.  The record carries
one field per argument the spec's method-invocation contract (§6) names;
`quantileLevels` is `none` because this invoker passes no requested quantile
levels. -/
structure Invocation (μ δ : Type) where
  baseModel : Option μ
  xtrain : δ
  ytrain : δ
  xtest : δ
  quantileLevels : Option (List ℚ)

/-- The argument record built by `_run_methods` for every discovered method
of the given `uq_type`. -/
def methodArgs (trainBase : δ → δ → μ) (uq : UQType) (Xtr ytr Xte : δ) :
    Invocation μ δ :=
  { baseModel := if uq = UQType.posthoc then some (trainBase Xtr ytr) else none
    xtrain := Xtr
    ytrain := ytr
    xtest := Xte
    quantileLevels := none }

/-- `UQ_Comparer._run_methods` (compare_methods.py:92-122): discover the
methods of `self.__class__.__dict__` whose names start with `uq_type`
(lines 109-111), train the base model first when posthoc (lines 105-107),
invoke each method and unpack its return value as the pair
`(y_pred, y_pis)` (lines 113-120), and collect
`uq_results[method_name] = y_pred, y_pis` (line 121). -/
def run_methods (trainBase : δ → δ → μ)
    (classDict : List (String × (Invocation μ δ → α × β)))
    (Xtr ytr Xte : δ) (uq : UQType) : List (String × (α × β)) :=
  let args := methodArgs trainBase uq Xtr ytr Xte
  (starfilter (fun k _ => pyStartswith k (uqTypeStr uq)) classDict).map
    fun kv => (kv.1, kv.2 args)

/-- Counterexample to C8 as stated: the invoker of compare_methods.py does
not pass the requested quantile levels — the argument record it builds for a
posthoc method carries `none` for them — and it stores a method's return
value unpacked as a 2-tuple `(y_pred, y_pis)`, not a 3-tuple
`(y_pred, y_quantiles, y_std)`: on a concrete class dictionary the result
mapping stores exactly the returned pair. -/
theorem C8_counterexample_no_quantile_levels :
    (methodArgs (fun x _ : ℕ => x) UQType.posthoc 1 2 3).quantileLevels = none
      ∧ run_methods (fun x _ : ℕ => x)
          [("posthoc_conformal_prediction", fun _ => ((5 : ℕ), (7 : ℕ)))] 1 2 3
          UQType.posthoc
        = [("posthoc_conformal_prediction", (5, 7))] := by
  exact ⟨rfl, rfl⟩

/-- Claim C8 (amended): for every UQ method discovered by the invoker, the
method is called with the training set and the query set — with the fitted
base model as leading argument for posthoc methods and no base model for
native methods — but *without* any requested quantile levels, and its return
value is unpacked as the 2-tuple `(y_pred, y_pis)`, which the result mapping
stores per method name. -/
theorem C8_invoker_contract (trainBase : δ → δ → μ)
    (classDict : List (String × (Invocation μ δ → α × β)))
    (Xtr ytr Xte : δ) (uq : UQType) (name : String) (r : α × β) :
    ((name, r) ∈ run_methods trainBase classDict Xtr ytr Xte uq
        ↔ ∃ f, (name, f) ∈ classDict ∧ pyStartswith name (uqTypeStr uq) = true
            ∧ r = f (methodArgs trainBase uq Xtr ytr Xte))
      ∧ (methodArgs trainBase uq Xtr ytr Xte).quantileLevels = none
      ∧ (methodArgs trainBase UQType.posthoc Xtr ytr Xte).baseModel
          = some (trainBase Xtr ytr)
      ∧ (methodArgs trainBase UQType.native Xtr ytr Xte).baseModel
          = (none : Option μ)
      ∧ (methodArgs trainBase uq Xtr ytr Xte).xtrain = Xtr
      ∧ (methodArgs trainBase uq Xtr ytr Xte).ytrain = ytr
      ∧ (methodArgs trainBase uq Xtr ytr Xte).xtest = Xte := by
  refine ⟨?_, rfl, rfl, rfl, rfl, rfl, rfl⟩
  constructor
  · intro hmem
    simp only [run_methods, starfilter, List.mem_map, List.mem_filter] at hmem
    obtain ⟨kv, ⟨hkv, hpre⟩, heq⟩ := hmem
    refine ⟨kv.2, ?_, ?_, ?_⟩
    · have h1 : kv.1 = name := congrArg Prod.fst heq
      rw [← h1]
      exact hkv
    · have h1 : kv.1 = name := congrArg Prod.fst heq
      rw [← h1]
      exact hpre
    · exact (congrArg Prod.snd heq).symm
  · intro ⟨f, hf, hpre, hr⟩
    simp only [run_methods, starfilter, List.mem_map, List.mem_filter]
    exact ⟨(name, f), ⟨hf, hpre⟩, by rw [hr]⟩

/-! ## Whitelist filtering of the method runner

`my_compare_methods_script.py` constructs its comparer with
`method_whitelist=METHOD_WHITELIST` (lines 575-580, 610-615), but the
version of `compare_methods.py` defining that parameter is not under `src/`
(the `UQ_Comparer` in `src/compare_methods.py:92-122` predates it: it has no
whitelist).  The runner below is therefore modelled from the spec. -/

/-- Modelled from the spec: the whitelist-aware method runner of the
`UQ_Comparer` consumed by `my_compare_methods_script.py`, which is missing
from `src/`.  Spec §4.1: "A whitelist filter (external configuration) may be
intersected with the discovered set before execution; methods not present in
the whitelist are skipped entirely (not invoked, not reported)"; spec §6:
"The core must treat an empty whitelist as 'run nothing' rather than 'run
everything.'"  The discovered class dictionary is filtered by whitelist
membership and only the surviving methods are invoked and reported. -/
def runMethodsWhitelisted (whitelist : List String)
    (classDict : List (String × κ)) (invoke : String → κ → ω) :
    List (String × ω) :=
  (classDict.filter fun kv => whitelist.contains kv.1).map
    fun kv => (kv.1, invoke kv.1 kv.2)

/-- The names of the methods the whitelist-aware runner invokes (one
invocation per surviving entry of the filtered dictionary). -/
def invokedMethodNames (whitelist : List String)
    (classDict : List (String × κ)) : List String :=
  (classDict.filter fun kv => whitelist.contains kv.1).map Prod.fst

/-- Claim C6: with a whitelist configured, the runner invokes exactly the
discovered methods whose names are in the whitelist; a discovered method
absent from the whitelist is never invoked and never appears in the result
mapping, and an empty whitelist invokes nothing and reports nothing. -/
theorem C6_whitelist_filtering (wl : List String) (d : List (String × κ))
    (invoke : String → κ → ω) (name : String) (hname : name ∉ wl) :
    (∀ r, (name, r) ∉ runMethodsWhitelisted wl d invoke)
      ∧ name ∉ invokedMethodNames wl d
      ∧ runMethodsWhitelisted [] d invoke = []
      ∧ invokedMethodNames ([] : List String) d = []
      ∧ (runMethodsWhitelisted wl d invoke).map Prod.fst
          = invokedMethodNames wl d
      ∧ (∀ k, k ∈ invokedMethodNames wl d → k ∈ wl) := by
  refine ⟨?_, ?_, ?_, ?_, ?_, ?_⟩
  · intro r hmem
    simp only [runMethodsWhitelisted, List.mem_map, List.mem_filter] at hmem
    obtain ⟨kv, ⟨_, hin⟩, heq⟩ := hmem
    have h1 : kv.1 = name := congrArg Prod.fst heq
    rw [h1] at hin
    simp at hin
    exact hname hin
  · intro hmem
    simp only [invokedMethodNames, List.mem_map, List.mem_filter] at hmem
    obtain ⟨kv, ⟨_, hin⟩, heq⟩ := hmem
    rw [heq] at hin
    simp at hin
    exact hname hin
  · simp [runMethodsWhitelisted, List.contains]
  · simp [invokedMethodNames, List.contains]
  · simp [runMethodsWhitelisted, invokedMethodNames, List.map_map]
  · intro k hmem
    simp only [invokedMethodNames, List.mem_map, List.mem_filter] at hmem
    obtain ⟨kv, ⟨_, hin⟩, heq⟩ := hmem
    rw [heq] at hin
    simpa using hin

/-- Witness for C6: discovered set `{native_foo, native_qux}` with whitelist
`{native_foo}` — `native_qux` is skipped; an empty whitelist runs nothing. -/
theorem C6_whitelist_filtering_witness :
    ("native_qux", 2) ∉ runMethodsWhitelisted ["native_foo"]
        [("native_foo", 1), ("native_qux", 2)] (fun _ v => v)
      ∧ "native_qux" ∉ invokedMethodNames ["native_foo"]
          [("native_foo", (1 : ℕ)), ("native_qux", 2)]
      ∧ runMethodsWhitelisted [] [("native_foo", 1), ("native_qux", 2)]
          (fun _ v => (v : ℕ)) = [] :=
  ⟨(C6_whitelist_filtering ["native_foo"] [("native_foo", 1), ("native_qux", 2)]
      (fun _ v => v) "native_qux" (by decide)).1 2,
   (C6_whitelist_filtering ["native_foo"] [("native_foo", 1), ("native_qux", 2)]
      (fun _ v => v) "native_qux" (by decide)).2.1,
   (C6_whitelist_filtering ["native_foo"] [("native_foo", 1), ("native_qux", 2)]
      (fun _ v => v) "native_qux" (by decide)).2.2.1⟩

/-! ## Metrics aggregator
(`My_UQ_Comparer.compute_metrics`, my_compare_methods_script.py:110-144)

The wrapper imports `rmse, smape_scaled, crps, nll_gaussian,
mean_pinball_loss` from a `metrics` module (line 122) that is not under
`src/`; those five functions are modelled from the spec (§4.4).  The
real-valued Gaussian scoring formulas involve transcendental functions, so
their numeric kernels are abstracted as parameters (`GaussKernels`); the
behaviour the spec fixes — which inputs make a metric `None`, and that
present values are scalars — is explicit. -/

/-- Opaque numeric kernels of the Gaussian scoring rules and of the pinball
loss, applied only when all their inputs are present. -/
structure GaussKernels where
  crpsFn : List ℚ → List ℚ → List ℚ → ℚ
  nllFn : List ℚ → List ℚ → List ℚ → ℚ
  pinballFn : List ℚ → List (List ℚ) → List ℚ → ℚ

/-- Mean of a list of rationals. -/
def ratMean (l : List ℚ) : ℚ :=
  l.sum / l.length

/-- Modelled from the spec (§4.4): `rmse` from the missing `metrics` module,
`sqrt(mean((y_true - y_pred)^2))`.  Working over `ℚ`, the model returns the
mean of squared errors — the square root does not affect which inputs
produce a value, nor finiteness or scalarness, which is all claims use. -/
def metrics_rmse (y_true y_pred : List ℚ) : ℚ :=
  ratMean (((y_true.zip y_pred)).map fun a => (a.1 - a.2) ^ 2)

/-- Modelled from the spec (§4.4): scaled SMAPE, a mean of per-sample
symmetric absolute percentage errors scaled to `[0,1]`. -/
def metrics_smape_scaled (y_true y_pred : List ℚ) : ℚ :=
  ratMean (((y_true.zip y_pred)).map fun a => |a.1 - a.2| / (|a.1| + |a.2|))

/-- Modelled from the spec (§4.4): "CRPS under a Gaussian approximation:
scored using `(y_pred, y_std, y_true)`; `None` when `y_std` absent." -/
def metrics_crps (K : GaussKernels) (y_true y_pred : List ℚ)
    (y_std : Option (List ℚ)) : Option ℚ :=
  y_std.map (K.crpsFn y_true y_pred)

/-- Modelled from the spec (§4.4): "Gaussian negative log-likelihood: using
`(y_pred, y_std, y_true)`; `None` when `y_std` absent." -/
def metrics_nll_gaussian (K : GaussKernels) (y_true y_pred : List ℚ)
    (y_std : Option (List ℚ)) : Option ℚ :=
  y_std.map (K.nllFn y_true y_pred)

/-- Modelled from the spec (§4.4): "Mean pinball loss averaged across
requested quantile levels ...; `None` when `y_quantiles` or
`requested_quantiles` absent."  The arguments are the ones the wrapper
passes at my_compare_methods_script.py:138. -/
def metrics_mean_pinball (K : GaussKernels) (y_pred : List ℚ)
    (y_quantiles : Option (List (List ℚ))) (quantiles : Option (List ℚ)) :
    Option ℚ :=
  match y_quantiles, quantiles with
  | some yq, some q => some (K.pinballFn y_pred yq q)
  | _, _ => none

/-- The `float(value)` cast applied to every present metric value
(my_compare_methods_script.py:140-143): the value becomes a plain
floating-point scalar; on an already-scalar rational it is the identity. -/
def pyFloat (q : ℚ) : ℚ := q

/-- The metrics mapping returned by `compute_metrics`; every field is a
scalar or `None` (never an array). -/
structure MetricsDict where
  rmse : Option ℚ
  smape_scaled : Option ℚ
  crps : Option ℚ
  nll_gaussian : Option ℚ
  mean_pinball : Option ℚ
deriving DecidableEq

/-- `My_UQ_Comparer.compute_metrics(y_pred, y_quantiles, y_std, y_true,
quantiles)` (my_compare_methods_script.py:110-144): `clean_y` squeezes each
non-`None` input (the identity on the already 1-D/2-D arrays modelled here
and `None`-preserving, lines 127-132), each metric is computed with exactly
the arguments of lines 133-139, and every present value is cast with `float`
(lines 140-143). -/
def compute_metrics (K : GaussKernels) (y_pred : List ℚ)
    (y_quantiles : Option (List (List ℚ))) (y_std : Option (List ℚ))
    (y_true : List ℚ) (quantiles : Option (List ℚ)) : MetricsDict :=
  { rmse := some (pyFloat (metrics_rmse y_true y_pred))
    smape_scaled := some (pyFloat (metrics_smape_scaled y_true y_pred))
    crps := (metrics_crps K y_true y_pred y_std).map pyFloat
    nll_gaussian := (metrics_nll_gaussian K y_true y_pred y_std).map pyFloat
    mean_pinball := (metrics_mean_pinball K y_pred y_quantiles quantiles).map pyFloat }

/-- Claim C7: with `y_std = None` the returned `crps` and `nll_gaussian`
(the negative-log-likelihood entry) are `None` while `rmse` is still the
(finite, scalar) value computed from `y_pred` and `y_true`; with
`y_quantiles = None`, or with the requested quantile levels absent, the mean
pinball entry is `None`.  Every present value is a scalar (`Option ℚ` field)
cast through `pyFloat`. -/
theorem C7_metrics_absence_propagation (K : GaussKernels)
    (y_pred y_true : List ℚ) (y_quantiles : Option (List (List ℚ)))
    (y_std : Option (List ℚ)) (quantiles : Option (List ℚ)) :
    (compute_metrics K y_pred y_quantiles none y_true quantiles).crps = none
      ∧ (compute_metrics K y_pred y_quantiles none y_true quantiles).nll_gaussian
          = none
      ∧ (compute_metrics K y_pred y_quantiles none y_true quantiles).rmse
          = some (metrics_rmse y_true y_pred)
      ∧ (compute_metrics K y_pred none y_std y_true quantiles).mean_pinball = none
      ∧ (compute_metrics K y_pred y_quantiles y_std y_true none).mean_pinball
          = none := by
  refine ⟨rfl, rfl, rfl, rfl, ?_⟩
  cases y_quantiles <;> rfl

/-! ## Comparison orchestrator (`compare_methods`, compare_methods.py:180-211) -/

/-- The names bound at module level in `compare_methods.py`: the imports
(lines 1-19), the module constant `PLOT_DATA` (line 22), the two classes and
the four module functions.  Double-underscore implicit names are omitted:
none of them is `alpha`. -/
def compareMethodsModuleNames : List String :=
  ["ABC", "abstractmethod", "Iterable", "np", "npt", "BlockBootstrap", "plt",
   "randint", "RandomForestRegressor", "mean_pinball_loss", "crps_gaussian",
   "nll_gaussian", "get_data", "starfilter", "train_base_model",
   "estimate_pred_interals_no_pfit_enbpi", "estimate_quantiles_qr",
   "PLOT_DATA", "UQ_Comparer", "My_UQ_Comparer", "compare_methods",
   "plot_data", "plot_intervals", "plot_uq_results"]

/-- The names bound in the scope of the function `compare_methods`
(compare_methods.py:180-211): its two parameters and every name its body
assigns (including the two targets of the final assignment and the generator
variable `results` of the generator expression at lines 207-210). -/
def compareMethodsLocalNames : List String :=
  ["uq_comparer", "should_plot_data", "X_train", "X_test", "y_train",
   "y_test", "X", "y", "native_results", "posthoc_results", "results",
   "native_metrics", "posthoc_metrics"]

/-- The Python builtins the module touches; `alpha` is not a Python
builtin. -/
def pythonBuiltinNames : List String :=
  ["print", "len", "dict", "list", "tuple", "zip", "enumerate", "range",
   "int", "float", "str", "isinstance", "NotImplementedError"]

/-- Python name resolution for a free name evaluated inside
`compare_methods` (enclosing-function locals, then module globals, then
builtins). -/
def nameBoundInCompareMethods (name : String) : Bool :=
  compareMethodsLocalNames.contains name
    || compareMethodsModuleNames.contains name
    || pythonBuiltinNames.contains name

/-- The comparer and collaborators `compare_methods` drives, as opaque
operations: `get_data` (line 191), the two method runners (lines 199-200)
and `compute_all_metrics`.  Because no execution ever produces a value for
the unbound name `alpha`, the model's metrics step closes over it; the
name-resolution guard in `compare_methods` below is what decides whether
that step can be evaluated at all. -/
structure ComparerOps (δ π : Type) where
  get_data : δ × δ × δ × δ × δ × δ
  run_native_methods : δ → δ → δ → List (String × π)
  run_posthoc_methods : δ → δ → δ → List (String × π)
  compute_all_metrics : List (String × π) → δ → List (String × Option ℚ)

/-- `compare_methods(uq_comparer, should_plot_data)`
(compare_methods.py:180-211): load the data (line 191), optionally plot
(lines 194-196; plotting is an external collaborator with no effect on
control flow or results, spec §4.5), run the native then the posthoc methods
(lines 199-200), plot the intervals (line 203), then evaluate the generator
expression `uq_comparer.compute_all_metrics(results, y_test, alpha=alpha)
for results in [native_results, posthoc_results]` under the tuple unpacking
of lines 207-210.  Evaluating the expression `alpha` looks the name up per
Python scoping rules and raises `NameError` when it is unbound. -/
def compare_methods (ops : ComparerOps δ π) (should_plot_data : Bool) :
    Except PyErr (List (String × Option ℚ) × List (String × Option ℚ)) :=
  match ops.get_data with
  | (X_train, X_test, y_train, y_test, _, _) =>
    let native_results := ops.run_native_methods X_train y_train X_test
    let posthoc_results := ops.run_posthoc_methods X_train y_train X_test
    if nameBoundInCompareMethods "alpha" then
      .ok (ops.compute_all_metrics native_results y_test,
           ops.compute_all_metrics posthoc_results y_test)
    else
      .error PyErr.nameError

/-- Claim C10: whatever the comparer and its data are, and however the
native and posthoc runs go, `compare_methods` raises `NameError` at its
metrics step, because the name `alpha` is free and unbound in its scope
(compare_methods.py:208); the function never returns the
`(native_metrics, posthoc_metrics)` pair. -/
theorem C10_compare_methods_alpha_unbound (ops : ComparerOps δ π)
    (should_plot_data : Bool) :
    compare_methods ops should_plot_data = Except.error PyErr.nameError
      ∧ nameBoundInCompareMethods "alpha" = false := by
  constructor
  · unfold compare_methods
    match ops.get_data with
    | (X_train, X_test, y_train, y_test, _, _) => rfl
  · rfl
